import Mathlib

/-!
Shallow embedding of the Resumable Ingestion & Segmentation Pipeline of
`src/backend/controllers/uploadController.js` (an Express controller that
uploads a video to S3, segments it with ffmpeg, dispatches the segments to an
external analysis service, and serves playback descriptors), together with
theorems settling the claims about it.

Modelling conventions:
- The Redis session store is modelled per key: each operation receives the
  record currently stored under `upload:{videoId}` as an `Option Session` and
  returns the record stored after the call.  Sessions are independent
  (no cross-session state), so a single-key view is faithful.
- External collaborators (S3, ffprobe/ffmpeg, the analysis service, and the
  fallibility of `redis.setex`) are modelled by an explicit environment of
  step outcomes, one per `await`/`execSync` in the source.  `redis.get` and
  local-only computations (`getSignedUrl`, reading temp files) are modelled
  as infallible; TTL expiry between the operations of one request is not
  modelled.
- Presigned URLs are modelled as key/expiry descriptors.
- JavaScript truthiness (`!fileName`, `!fileSize`, `!uploadSession.chunkUrls`)
  is modelled exactly: `undefined` and `""` are falsy for strings, `undefined`
  and `0` for numbers, and an empty array is truthy.
-/

namespace UploadService

/-- The `status` strings the controller stores in a session record. -/
inductive Status
  | uploading
  | processing
  | chunked
  | analyzing
  | completed
  | failed
deriving DecidableEq, Repr

/-- The string stored in the record's `status` field. -/
def statusString : Status → String
  | .uploading => "uploading"
  | .processing => "processing"
  | .chunked => "chunked"
  | .analyzing => "analyzing"
  | .completed => "completed"
  | .failed => "failed"

/-- A presigned URL: a time-limited access descriptor for one object key,
as produced by `getSignedUrl` with an `expiresIn` argument. -/
structure SignedUrl where
  key : String
  expiresIn : Nat
deriving DecidableEq, Repr

/-- The session record serialized into Redis under `upload:{videoId}`.
Fields are exactly those the controller writes; `Option` marks fields that
are absent (`undefined`) until some step sets them. -/
structure Session where
  videoId : String
  fileName : String
  fileSize : Int
  originalKey : String
  status : Status
  totalChunks : Option Nat := none
  chunkKeys : Option (List String) := none
  chunkUrls : Option (List SignedUrl) := none
  error : Option String := none
  analysisResults : Option String := none
  createdAt : Nat
  processedAt : Option Nat := none
  completedAt : Option Nat := none
deriving DecidableEq, Repr

/-- Outcome of one fallible external step (an `await` on S3/axios/redis or an
`execSync` of ffprobe/ffmpeg): success, or a thrown error with its message. -/
inductive ExtOutcome
  | ok
  | fail (msg : String)
deriving DecidableEq, Repr

/-- The failure message carried by an outcome, if it is a failure. -/
def ExtOutcome.failMsg : ExtOutcome → Option String
  | .ok => none
  | .fail m => some m

/-- JS truthiness for an optional string request field: `undefined` and the
empty string are falsy. -/
def jsFalsyStr : Option String → Bool
  | none => true
  | some s => s == ""

/-- JS truthiness for an optional numeric request field: `undefined` and `0`
are falsy (negative numbers are truthy). -/
def jsFalsyNum : Option Int → Bool
  | none => true
  | some v => v == 0

/-- The S3 key of the original upload: `videos/{videoId}/original/{fileName}`. -/
def originalKeyFor (videoId fileName : String) : String :=
  "videos/" ++ videoId ++ "/original/" ++ fileName

/-- The S3 key of one produced segment: `videos/{videoId}/chunks/{file}`. -/
def chunkKeyFor (videoId file : String) : String :=
  "videos/" ++ videoId ++ "/chunks/" ++ file

/-- `PRESIGNED_URL_EXPIRY` default from the environment handling (3600 s). -/
def PRESIGNED_URL_EXPIRY : Nat := 3600

/-- Response of `initiateUpload` (the JSON envelope fields the claims need). -/
structure InitResp where
  statusCode : Nat
  success : Bool
  message : String
  videoId : Option String := none
  uploadUrl : Option SignedUrl := none
deriving DecidableEq, Repr

/-- `initiateUpload` from `uploadController.js` (lines 29-83): validates
`fileName`/`fileSize` by JS truthiness, creates the session record with
status `uploading`, stores it (a fallible `setex`), and returns a presigned
write URL.  The first component is the record stored under the fresh
`upload:{videoId}` key after the call (`none` = no session created). -/
def initiateUpload (fileName : Option String) (fileSize : Option Int)
    (videoId : String) (now : Nat) (redisWrite : ExtOutcome) :
    Option Session × InitResp :=
  if jsFalsyStr fileName || jsFalsyNum fileSize then
    (none, { statusCode := 400, success := false,
             message := "fileName and fileSize are required" })
  else
    let fn := fileName.getD ""
    let key := originalKeyFor videoId fn
    let session : Session :=
      { videoId := videoId, fileName := fn, fileSize := fileSize.getD 0,
        originalKey := key, status := .uploading, createdAt := now }
    match redisWrite with
    | .ok =>
      (some session,
       { statusCode := 200, success := true, message := "",
         videoId := some videoId,
         uploadUrl := some ⟨key, PRESIGNED_URL_EXPIRY⟩ })
    | .fail _ =>
      (none, { statusCode := 500, success := false,
               message := "Failed to initiate upload" })

/-- Environment of external outcomes for one `processVideo` run, one field per
fallible step, in source order. -/
structure ProcessEnv where
  /-- `setex` of the record after `status := 'processing'` (line 109). -/
  statusWrite : ExtOutcome
  /-- S3 `GetObjectCommand` and streaming the body to the temp file. -/
  download : ExtOutcome
  /-- `execSync` of ffprobe for the duration. -/
  probe : ExtOutcome
  /-- `execSync` of the ffmpeg segmentation command. -/
  split : ExtOutcome
  /-- `readdirSync` of the chunks directory after a successful split. -/
  dirFiles : List String
  /-- Outcome of the S3 put for the i-th uploaded chunk (missing entries
  mean success). -/
  chunkPuts : List ExtOutcome
  /-- `setex` of the final `chunked` record (line 229). -/
  finalWrite : ExtOutcome
  /-- `setex` inside the catch block (line 250). -/
  recoveryWrite : ExtOutcome
deriving Repr

/-- JS `String.prototype.startsWith`: code-unit comparison of the leading
characters. -/
def jsStartsWith (p s : String) : Bool :=
  s.data.take p.data.length == p.data

/-- JS `String.prototype.endsWith`: code-unit comparison of the trailing
characters. -/
def jsEndsWith (q s : String) : Bool :=
  s.data.reverse.take q.data.length == q.data.reverse

/-- The filter of line 169: keep files named `chunk_*.mp4`. -/
def isChunkFile (f : String) : Bool :=
  jsStartsWith "chunk_" f && jsEndsWith ".mp4" f

/-- Lexicographic comparison of char lists by code unit, the order used by a
default JS `Array.prototype.sort()` on strings. -/
def jsLeChars : List Char → List Char → Bool
  | [], _ => true
  | _ :: _, [] => false
  | a :: as, b :: bs =>
    if a.toNat < b.toNat then true
    else if b.toNat < a.toNat then false
    else jsLeChars as bs

/-- JS default string order: `a` sorts at or before `b`. -/
def jsLe (a b : String) : Bool := jsLeChars a.data b.data

/-- Lines 168-170: `readdirSync(...).filter(chunk_*.mp4).sort()` — the
enumeration of produced segment files. -/
def listChunkFiles (dirFiles : List String) : List String :=
  (dirFiles.filter isChunkFile).mergeSort jsLe

/-- The upload loop of lines 178-212: put each chunk to S3 in list order
(index `i` counts puts for the outcome list), presign it, and accumulate the
key and URL lists in the same order.  The first put failure aborts the loop
with the thrown message; nothing is published on that path. -/
def uploadChunksFrom (videoId : String) (puts : List ExtOutcome) :
    List String → Nat → Except String (List String × List SignedUrl)
  | [], _ => .ok ([], [])
  | f :: fs, i =>
    match puts.getD i .ok with
    | .fail msg => .error msg
    | .ok =>
      match uploadChunksFrom videoId puts fs (i + 1) with
      | .error msg => .error msg
      | .ok (keys, urls) =>
        .ok (chunkKeyFor videoId f :: keys,
             ⟨chunkKeyFor videoId f, 3600⟩ :: urls)

/-- The catch block of lines 240-254: re-read the record (the value currently
stored), set `status := 'failed'` and `error := message`, and `setex` it; a
failure of that write is swallowed, leaving the stored record unchanged. -/
def recoverFailed (store : Option Session) (msg : String)
    (recoveryWrite : ExtOutcome) : Option Session :=
  match store, recoveryWrite with
  | some s, .ok => some { s with status := .failed, error := some msg }
  | _, _ => store

/-- Response of `processVideo`. -/
structure ProcResp where
  statusCode : Nat
  success : Bool
  message : String
  totalChunks : Option Nat := none
  chunkUrls : Option (List SignedUrl) := none
  error : Option String := none
deriving DecidableEq, Repr

/-- The 500 envelope of `processVideo`'s catch block. -/
def processFailResp (msg : String) : ProcResp :=
  { statusCode := 500, success := false,
    message := "Failed to process video", error := some msg }

/-- `processVideo` from `uploadController.js` (lines 86-262): look up the
session, set `status := 'processing'` and store it, download the original,
probe its duration, split it with ffmpeg, enumerate the produced files
(filtered and sorted), upload each in that order, and store the `chunked`
record with the full key/URL lists.  Any thrown step lands in the catch
block (`recoverFailed`).  Note the controller performs no check of the
session's current status before starting. -/
def processVideo (store : Option Session) (env : ProcessEnv) (now : Nat) :
    Option Session × ProcResp :=
  match store with
  | none =>
    (none, { statusCode := 404, success := false,
             message := "Upload session not found" })
  | some session =>
    let s1 : Session := { session with status := .processing }
    match env.statusWrite with
    | .fail msg =>
      (recoverFailed (some session) msg env.recoveryWrite, processFailResp msg)
    | .ok =>
      match env.download with
      | .fail msg =>
        (recoverFailed (some s1) msg env.recoveryWrite, processFailResp msg)
      | .ok =>
        match env.probe with
        | .fail msg =>
          (recoverFailed (some s1) msg env.recoveryWrite, processFailResp msg)
        | .ok =>
          match env.split with
          | .fail msg =>
            (recoverFailed (some s1) msg env.recoveryWrite, processFailResp msg)
          | .ok =>
            let chunkFiles := listChunkFiles env.dirFiles
            match uploadChunksFrom session.videoId env.chunkPuts chunkFiles 0 with
            | .error msg =>
              (recoverFailed (some s1) msg env.recoveryWrite, processFailResp msg)
            | .ok (keys, urls) =>
              let s2 : Session :=
                { s1 with
                  status := .chunked,
                  totalChunks := some chunkFiles.length,
                  chunkKeys := some keys, chunkUrls := some urls,
                  processedAt := some now }
              match env.finalWrite with
              | .fail msg =>
                (recoverFailed (some s1) msg env.recoveryWrite, processFailResp msg)
              | .ok =>
                (some s2,
                 { statusCode := 200, success := true,
                   message := "Video chunked into " ++
                     toString chunkFiles.length ++ " valid MP4 segments",
                   totalChunks := some chunkFiles.length,
                   chunkUrls := some urls })

/-- Environment of external outcomes for one `analyzeVideo` run. -/
structure AnalyzeEnv where
  /-- `setex` of the record after `status := 'analyzing'` (line 296). -/
  statusWrite : ExtOutcome
  /-- `axios.get` of the i-th chunk URL (missing entries mean success). -/
  chunkDownloads : List ExtOutcome
  /-- The batch POST to the analysis service. -/
  analysisCall : ExtOutcome
  /-- `response.data` when the analysis call succeeds. -/
  analysisPayload : String
  /-- `setex` of the `failed` record inside the inner catch (line 359). -/
  failWrite : ExtOutcome
  /-- `setex` of the `completed` record (line 372). -/
  finalWrite : ExtOutcome
deriving Repr

/-- The download loop of lines 324-329: fetch each chunk URL in order; the
first failure throws its message into the inner catch. -/
def downloadAll (outs : List ExtOutcome) : List SignedUrl → Nat → ExtOutcome
  | [], _ => .ok
  | _ :: us, i =>
    match outs.getD i .ok with
    | .fail msg => .fail msg
    | .ok => downloadAll outs us (i + 1)

/-- Response of `analyzeVideo`. -/
structure AnalyzeResp where
  statusCode : Nat
  success : Bool
  message : String
  currentStatus : Option Status := none
  analysisResults : Option String := none
  error : Option String := none
deriving DecidableEq, Repr

/-- The 500 envelope of `analyzeVideo`'s outer catch block (lines 381-388),
which performs no session-store write. -/
def analyzeOuterCatchResp : AnalyzeResp :=
  { statusCode := 500, success := false, message := "Failed to analyze video" }

/-- `analyzeVideo` from `uploadController.js` (lines 265-389): look up the
session, reject with 400 unless `status === 'chunked'`, set
`status := 'analyzing'` and store it, download every chunk URL, POST the
batch to the analysis service, and store the `completed` record with the
results.  A failure of the download loop or the analysis call lands in the
inner catch (store `failed`, return 500); a failure of any `setex` (or a
missing `chunkUrls` field) lands in the outer catch, which returns 500
without touching the store. -/
def analyzeVideo (store : Option Session) (env : AnalyzeEnv) (now : Nat) :
    Option Session × AnalyzeResp :=
  match store with
  | none =>
    (none, { statusCode := 404, success := false,
             message := "Upload session not found" })
  | some session =>
    if session.status = Status.chunked then
      let s1 : Session := { session with status := .analyzing }
      match env.statusWrite with
      | .fail _ =>
        -- the write threw, so the stored record is still `session`
        (some session, analyzeOuterCatchResp)
      | .ok =>
        match session.chunkUrls with
        | none =>
          -- `chunkUrls.length` on undefined throws into the outer catch
          (some s1, analyzeOuterCatchResp)
        | some urls =>
          let innerCatch : String → Option Session × AnalyzeResp := fun msg =>
            match env.failWrite with
            | .ok =>
              (some { s1 with status := .failed, error := some msg },
               { statusCode := 500, success := false,
                 message := "Analysis failed", error := some msg })
            | .fail _ =>
              -- the catch's own setex threw into the outer catch
              (some s1, analyzeOuterCatchResp)
          match downloadAll env.chunkDownloads urls 0 with
          | .fail msg => innerCatch msg
          | .ok =>
            match env.analysisCall with
            | .fail msg => innerCatch msg
            | .ok =>
              let s2 : Session :=
                { s1 with
                  status := .completed,
                  analysisResults := some env.analysisPayload,
                  completedAt := some now }
              match env.finalWrite with
              | .fail _ => (some s1, analyzeOuterCatchResp)
              | .ok =>
                (some s2,
                 { statusCode := 200, success := true,
                   message := "Analysis completed successfully",
                   analysisResults := some env.analysisPayload })
    else
      (some session,
       { statusCode := 400, success := false,
         message := "Video not yet chunked",
         currentStatus := some session.status })

/-- JS truthiness test of line 406: `!chunkUrls || chunkUrls.length === 0`. -/
def noChunkUrls : Option (List SignedUrl) → Bool
  | none => true
  | some l => l.isEmpty

/-- Response of `getChunks`. -/
structure ChunksResp where
  statusCode : Nat
  success : Bool
  message : String
  status : Option Status := none
  totalChunks : Option Nat := none
  chunkUrls : Option (List SignedUrl) := none
deriving DecidableEq, Repr

/-- `getChunks` from `uploadController.js` (lines 392-444): look up the
session; if `chunkUrls` is absent or empty, reject with 400
`Video not yet chunked`; otherwise produce a fresh 24-hour presigned URL per
stored `chunkKeys` entry, in stored order.  Iterating `chunkKeys` when that
field is absent throws into the catch (500).  No store write happens. -/
def getChunks (store : Option Session) : Option Session × ChunksResp :=
  match store with
  | none =>
    (none, { statusCode := 404, success := false,
             message := "Upload session not found" })
  | some session =>
    if noChunkUrls session.chunkUrls then
      (some session,
       { statusCode := 400, success := false,
         message := "Video not yet chunked", status := some session.status })
    else
      match session.chunkKeys with
      | none =>
        (some session, { statusCode := 500, success := false,
                         message := "Failed to get chunks" })
      | some keys =>
        let fresh := keys.map fun k => SignedUrl.mk k 86400
        (some session,
         { statusCode := 200, success := true,
           message := "Chunk URLs ready for playback",
           totalChunks := some fresh.length, chunkUrls := some fresh })

/-- Values occurring in the JSON body of the status endpoint.  A field whose
session value is absent is serialized as `undefined` (and dropped by
`res.json`). -/
inductive JVal
  | str (v : String)
  | num (v : Int)
  | bool (v : Bool)
  | undef
deriving DecidableEq, Repr

/-- Encode an optional timestamp field. -/
def optNum : Option Nat → JVal
  | none => .undef
  | some n => .num n

/-- The JSON object literal of lines 461-470, as an ordered key/value list:
exactly the fields `getUploadStatus` returns for an existing session. -/
def getUploadStatusBody (s : Session) : List (String × JVal) :=
  [("success", .bool true),
   ("videoId", .str s.videoId),
   ("fileName", .str s.fileName),
   ("status", .str (statusString s.status)),
   ("totalChunks", .num (s.totalChunks.getD 0)),
   ("createdAt", .num s.createdAt),
   ("processedAt", optNum s.processedAt),
   ("completedAt", optNum s.completedAt)]

/-- `getUploadStatus` from `uploadController.js` (lines 447-479): look up the
session and return its summary (status code paired with the body).  No store
write happens. -/
def getUploadStatus (store : Option Session) :
    Option Session × (Nat × List (String × JVal)) :=
  match store with
  | none =>
    (none, (404, [("success", .bool false),
                  ("message", .str "Upload session not found")]))
  | some s => (some s, (200, getUploadStatusBody s))

/-- Response of `streamVideo`. -/
structure StreamResp where
  statusCode : Nat
  success : Bool
  message : String
  playbackUrl : Option SignedUrl := none
deriving DecidableEq, Repr

/-- `streamVideo` from `uploadController.js` (lines 482-531): look up the
session, require a truthy `fileName`, and return a single 24-hour presigned
URL for the original object key.  The object store contents (`s3Stored`,
the set of keys durably present) are passed to the model to state storage
properties, but the source never consults them: the URL is signed without
any existence check. -/
def streamVideo (store : Option Session) (_s3Stored : List String) :
    Option Session × StreamResp :=
  match store with
  | none =>
    (none, { statusCode := 404, success := false,
             message := "Upload session not found" })
  | some session =>
    if session.fileName == "" then
      (some session,
       { statusCode := 400, success := false,
         message := "Original video fileName not found in session" })
    else
      (some session,
       { statusCode := 200, success := true,
         message := "Presigned URL for original video",
         playbackUrl :=
           some ⟨originalKeyFor session.videoId session.fileName, 86400⟩ })

/-- One public operation, with the request data and external outcomes it
consumes. -/
inductive Op
  | initiateOp (fileName : Option String) (fileSize : Option Int)
      (videoId : String) (now : Nat) (w : ExtOutcome)
  | processOp (env : ProcessEnv) (now : Nat)
  | analyzeOp (env : AnalyzeEnv) (now : Nat)
  | chunksOp
  | statusOp
  | streamOp (s3Stored : List String)

/-- Effect of one operation on the record stored under one session key.
`initiateUpload` always keys a fresh uuid, so it can only create the record
(an already-existing record under a different key is untouched; on this key,
creation only happens from the empty state). -/
def step (store : Option Session) : Op → Option Session
  | .initiateOp fn fs vid now w =>
    match store with
    | some s => some s
    | none => (initiateUpload fn fs vid now w).1
  | .processOp env now => (processVideo store env now).1
  | .analyzeOp env now => (analyzeVideo store env now).1
  | .chunksOp => (getChunks store).1
  | .statusOp => (getUploadStatus store).1
  | .streamOp s3 => (streamVideo store s3).1

/-- States of the session key reachable by any sequence of public
operations, starting from no record. -/
def Reachable (st : Option Session) : Prop :=
  Relation.ReflTransGen (fun a b => ∃ op, step a op = b) none st

/-! ### Model of the transcoder's output naming

ffmpeg is an external collaborator invoked with the output pattern
`chunk_%03d.mp4` (line 152): the i-th produced segment is named with the
index printed in decimal, zero-padded to at least three digits. -/

/-- The decimal digit character for `d` (0-9). -/
def digitChar : Nat → Char
  | 0 => '0' | 1 => '1' | 2 => '2' | 3 => '3' | 4 => '4'
  | 5 => '5' | 6 => '6' | 7 => '7' | 8 => '8' | _ => '9'

/-- `%03d`: three zero-padded digits for `n < 1000`, the full decimal
expansion beyond. -/
def pad3 (n : Nat) : String :=
  if n < 1000 then
    ⟨[digitChar (n / 100), digitChar (n / 10 % 10), digitChar (n % 10)]⟩
  else
    ⟨Nat.toDigits 10 n⟩

/-- The file name of the segment with logical index `i`. -/
def chunkFileName (i : Nat) : String := "chunk_" ++ pad3 i ++ ".mp4"

/-- The directory contents after ffmpeg produced `n` segments. -/
def producedSegmentFiles (n : Nat) : List String :=
  (List.range n).map chunkFileName

/-! ### Concrete environments and sessions used in counterexamples and
witnesses -/

/-- A `processVideo` environment in which every external step succeeds and
the split produced `files`. -/
def okProcessEnv (files : List String) : ProcessEnv :=
  { statusWrite := .ok, download := .ok, probe := .ok, split := .ok,
    dirFiles := files, chunkPuts := [], finalWrite := .ok,
    recoveryWrite := .ok }

/-- A `processVideo` environment in which the S3 download of the original
throws `m`, and the catch block's own `setex` then throws `m'`. -/
def failDownloadEnv (m m' : String) : ProcessEnv :=
  { statusWrite := .ok, download := .fail m, probe := .ok, split := .ok,
    dirFiles := [], chunkPuts := [], finalWrite := .ok,
    recoveryWrite := .fail m' }

/-- A `processVideo` environment in which the download throws `m` and the
catch block's `setex` succeeds. -/
def failDownloadRecoverEnv (m : String) : ProcessEnv :=
  { statusWrite := .ok, download := .fail m, probe := .ok, split := .ok,
    dirFiles := [], chunkPuts := [], finalWrite := .ok,
    recoveryWrite := .ok }

/-- An `analyzeVideo` environment in which every external step succeeds. -/
def okAnalyzeEnv : AnalyzeEnv :=
  { statusWrite := .ok, chunkDownloads := [], analysisCall := .ok,
    analysisPayload := "analysis-report", failWrite := .ok,
    finalWrite := .ok }

/-- An `analyzeVideo` environment in which the analysis succeeds but the
`setex` storing the completed record throws. -/
def finalWriteFailEnv : AnalyzeEnv :=
  { okAnalyzeEnv with finalWrite := .fail "redis connection lost" }

/-- The record created by a successful `initiateUpload` for `a.mp4`. -/
def sessionU : Session :=
  { videoId := "vid-1", fileName := "a.mp4", fileSize := 1000,
    originalKey := "videos/vid-1/original/a.mp4", status := .uploading,
    createdAt := 0 }

/-- The record after a successful `processVideo` run (zero segments
produced) on `sessionU`. -/
def sessionC : Session :=
  { sessionU with
    status := .chunked, totalChunks := some 0,
    chunkKeys := some [], chunkUrls := some [], processedAt := some 1 }

/-- The record after a successful `analyzeVideo` run on `sessionC`. -/
def sessionD : Session :=
  { sessionC with
    status := .completed,
    analysisResults := some "analysis-report", completedAt := some 2 }

/-- The record after a second `processVideo` run on `sessionD` whose
download fails and whose recovery write succeeds. -/
def sessionBad : Session :=
  { sessionD with status := .failed, error := some "source object missing" }

/-- A chunked session with one stored segment reference. -/
def chunkedSession : Session :=
  { sessionU with
    status := .chunked, totalChunks := some 1,
    chunkKeys := some ["videos/vid-1/chunks/chunk_000.mp4"],
    chunkUrls := some [⟨"videos/vid-1/chunks/chunk_000.mp4", 3600⟩],
    processedAt := some 1 }

/-- A session whose dispatch failed while its segment references stayed
populated (the state of spec Scenario E). -/
def failedDispatchSession : Session :=
  { chunkedSession with
    status := .failed,
    error := some "FastAPI analysis error" }

/-- A session holding an empty-array segment reference list. -/
def emptyRefsSession : Session :=
  { sessionU with
    status := .processing, chunkKeys := some [],
    chunkUrls := some [] }

/-! ### Formalizations of the claims under test

Each `CnClaim` renders the claim's sentence as a proposition about the
embedded operations; status-quo environments quantified where the claim
says "every". -/

/-- C1 as stated: a session whose dispatch failed but whose
`chunkKeys`/`chunkUrls` are still populated accepts a re-invocation of
dispatch, and a then-successful analysis run ends with status
`completed`. -/
def C1Claim : Prop :=
  ∀ (s : Session) (env : AnalyzeEnv) (now : Nat),
    s.status = .failed → s.chunkUrls.isSome →
    env.statusWrite = .ok → env.chunkDownloads = [] →
    env.analysisCall = .ok → env.finalWrite = .ok →
    (analyzeVideo (some s) env now).2.success = true ∧
    ∃ s', (analyzeVideo (some s) env now).1 = some s' ∧
      s'.status = .completed

/-- C2 as stated: whenever a `processVideo` run fails (its response is the
500 failure envelope), the stored record ends with status `failed` and a
non-empty error, and the stored segment reference list is never partially
published (it is the pre-run list or the complete new list). -/
def C2Claim : Prop :=
  ∀ (s : Session) (env : ProcessEnv) (now : Nat),
    ((processVideo (some s) env now).2.statusCode = 500 →
      ∃ s' m, (processVideo (some s) env now).1 = some s' ∧
        s'.status = .failed ∧ s'.error = some m ∧ m ≠ "") ∧
    (∀ s', (processVideo (some s) env now).1 = some s' →
      s'.chunkKeys = s.chunkKeys ∨
      s'.chunkKeys =
        some ((listChunkFiles env.dirFiles).map (chunkKeyFor s.videoId)))

/-- C3 as stated, in the parts the cited code decides: `completed` and
`failed` are terminal under every operation; dispatch leaves any
non-`chunked` session unchanged; segmentation leaves any non-`uploading`
session unchanged (it may only be entered from `uploading`). -/
def C3Claim : Prop :=
  (∀ (s : Session) (op : Op) (s' : Session),
     (s.status = .completed ∨ s.status = .failed) →
     step (some s) op = some s' → s'.status = s.status) ∧
  (∀ (s : Session) (env : AnalyzeEnv) (now : Nat),
     s.status ≠ .chunked → (analyzeVideo (some s) env now).1 = some s) ∧
  (∀ (s : Session) (env : ProcessEnv) (now : Nat),
     s.status ≠ .uploading → (processVideo (some s) env now).1 = some s)

/-- C4 as stated: when segmentation has occurred the playback surface
returns one time-limited descriptor per segment in stored order; otherwise
a single descriptor for the original; and when neither the original nor any
segment is durably stored (here: the object store is empty), playback
fails. -/
def C4Claim : Prop :=
  ∀ (s : Session) (s3Stored : List String),
    (∀ keys urls, s.chunkKeys = some keys → s.chunkUrls = some urls →
       urls ≠ [] →
       (getChunks (some s)).2.statusCode = 200 ∧
       (getChunks (some s)).2.chunkUrls =
         some (keys.map fun k => SignedUrl.mk k 86400)) ∧
    (s.chunkUrls = none → s.fileName ≠ "" →
       (streamVideo (some s) s3Stored).2.statusCode = 200 ∧
       (streamVideo (some s) s3Stored).2.playbackUrl.isSome) ∧
    (s3Stored = [] →
       (streamVideo (some s) s3Stored).2.success = false ∧
       (getChunks (some s)).2.success = false)

/-- C5 as stated: on every reachable session record, `analysisResults` is
present exactly when the status is `completed`. -/
def C5Claim : Prop :=
  ∀ s : Session, Reachable (some s) →
    (s.analysisResults.isSome ↔ s.status = .completed)

/-- C6 as stated (its necessary interface part): the status endpoint's body
for an existing session carries a `completedChunkIndices` and a
`remainingChunkIndices` field (whose complement semantics the claim then
constrains). -/
def C6Claim : Prop :=
  ∀ s : Session,
    "completedChunkIndices" ∈ (getUploadStatusBody s).map Prod.fst ∧
    "remainingChunkIndices" ∈ (getUploadStatusBody s).map Prod.fst

/-- C7 as stated: for every segment count, a fully successful
`processVideo` run over the transcoder's `chunk_%03d.mp4` output stores a
reference list whose i-th entry denotes the segment with logical index
i. -/
def C7Claim : Prop :=
  ∀ (n : Nat) (s : Session) (now : Nat) (s' : Session),
    (processVideo (some s) (okProcessEnv (producedSegmentFiles n)) now).1 =
      some s' →
    s'.chunkKeys =
      some ((List.range n).map fun i => chunkKeyFor s.videoId (chunkFileName i))

/-- C8 as stated: every failing run of the two mutating pipeline operations
(500 failure envelope) persists the failure to the session record (status
`failed` with the cause) before returning, so a later status call sees
it. -/
def C8Claim : Prop :=
  (∀ (s : Session) (env : ProcessEnv) (now : Nat),
     (processVideo (some s) env now).2.statusCode = 500 →
     ∃ s', (processVideo (some s) env now).1 = some s' ∧
       s'.status = .failed ∧ s'.error.isSome) ∧
  (∀ (s : Session) (env : AnalyzeEnv) (now : Nat),
     (analyzeVideo (some s) env now).2.statusCode = 500 →
     ∃ s', (analyzeVideo (some s) env now).1 = some s' ∧
       s'.status = .failed ∧ s'.error.isSome)

/-- C9 as stated: an initiate request with a missing name, or a missing or
non-positive size, is rejected with the 400 validation envelope and creates
no session. -/
def C9Claim : Prop :=
  ∀ (fn : Option String) (fs : Option Int) (vid : String) (now : Nat)
    (w : ExtOutcome),
    (fn = none ∨ fs = none ∨ ∃ v : Int, v ≤ 0 ∧ fs = some v) →
    (initiateUpload fn fs vid now w).1 = none ∧
    (initiateUpload fn fs vid now w).2.statusCode = 400

/-- Non-emptiness of every failure message an environment can throw (the
exception messages of real collaborators). -/
def ExtOutcome.nonemptyMsg : ExtOutcome → Prop
  | .ok => True
  | .fail m => m ≠ ""

/-- All failure messages of a `processVideo` environment are non-empty. -/
def ProcessEnv.nonemptyMsgs (env : ProcessEnv) : Prop :=
  env.statusWrite.nonemptyMsg ∧ env.download.nonemptyMsg ∧
  env.probe.nonemptyMsg ∧ env.split.nonemptyMsg ∧
  (∀ o ∈ env.chunkPuts, o.nonemptyMsg) ∧ env.finalWrite.nonemptyMsg

/-- The record a fully successful `processVideo` run stores, given the
session it started from, the directory contents, and the timestamp. -/
def chunkedRecord (s : Session) (files : List String) (now : Nat) : Session :=
  { s with
    status := .chunked,
    totalChunks := some (listChunkFiles files).length,
    chunkKeys := some ((listChunkFiles files).map (chunkKeyFor s.videoId)),
    chunkUrls := some ((listChunkFiles files).map fun f =>
      SignedUrl.mk (chunkKeyFor s.videoId f) 3600),
    processedAt := some now }

/-- The session-record invariant behind claim C5's provable direction:
a completed record carries analysis results. -/
def CompletedHasResults (st : Option Session) : Prop :=
  ∀ s : Session, st = some s → s.status = .completed →
    s.analysisResults.isSome

/-! ## Helper lemmas about the embedded operations -/

/-- With an all-ok outcome list, the download loop succeeds. -/
theorem downloadAll_nil (us : List SignedUrl) (i : Nat) :
    downloadAll [] us i = .ok := by
  induction us generalizing i with
  | nil => rfl
  | cons u us ih => simpa [downloadAll] using ih (i + 1)

/-- With an all-ok put list, the upload loop publishes the key and URL of
every file, in list order. -/
theorem uploadChunksFrom_nil_puts (vid : String) (fs : List String) (i : Nat) :
    uploadChunksFrom vid [] fs i =
      .ok (fs.map (chunkKeyFor vid),
           fs.map fun f => SignedUrl.mk (chunkKeyFor vid f) 3600) := by
  induction fs generalizing i with
  | nil => rfl
  | cons f fs ih => simp [uploadChunksFrom, ih (i + 1)]

/-- Whenever the upload loop succeeds, the published lists are exactly the
key and URL of every file, in list order. -/
theorem uploadChunksFrom_ok_shape (vid : String) (puts : List ExtOutcome) :
    ∀ (fs : List String) (i : Nat) (keys : List String)
      (urls : List SignedUrl),
      uploadChunksFrom vid puts fs i = .ok (keys, urls) →
      keys = fs.map (chunkKeyFor vid) ∧
      urls = fs.map fun f => SignedUrl.mk (chunkKeyFor vid f) 3600 := by
  intro fs
  induction fs with
  | nil => intro i keys urls h; simp [uploadChunksFrom] at h; simp [h.1, h.2]
  | cons f fs ih =>
    intro i keys urls h
    simp only [uploadChunksFrom] at h
    cases hg : puts.getD i .ok with
    | fail m => rw [hg] at h; exact absurd h (by simp)
    | ok =>
      rw [hg] at h
      cases hr : uploadChunksFrom vid puts fs (i + 1) with
      | error m => rw [hr] at h; exact absurd h (by simp)
      | ok p =>
        rw [hr] at h
        obtain ⟨hk, hu⟩ := ih (i + 1) p.1 p.2 (by rw [hr])
        simp only [Except.ok.injEq] at h
        cases h
        exact ⟨by rw [hk, List.map_cons], by rw [hu, List.map_cons]⟩

/-- The message of a failing upload loop is the message of one of the
environment's put outcomes. -/
theorem uploadChunksFrom_error_mem (vid : String) (puts : List ExtOutcome) :
    ∀ (fs : List String) (i : Nat) (m : String),
      uploadChunksFrom vid puts fs i = .error m →
      ExtOutcome.fail m ∈ puts := by
  intro fs
  induction fs with
  | nil => intro i m h; simp [uploadChunksFrom] at h
  | cons f fs ih =>
    intro i m h
    simp only [uploadChunksFrom] at h
    cases hg : puts.getD i .ok with
    | fail m' =>
      rw [hg] at h
      simp only [Except.error.injEq] at h
      rw [← h]
      cases hq : puts.get? i with
      | none => rw [List.getD, hq] at hg; simp at hg
      | some o =>
        rw [List.getD, hq] at hg
        simp only [Option.getD_some] at hg
        rw [← hg]
        exact List.get?_mem hq
    | ok =>
      rw [hg] at h
      cases hr : uploadChunksFrom vid puts fs (i + 1) with
      | error m' =>
        rw [hr] at h
        simp only [Except.error.injEq] at h
        rw [← h]
        exact ih (i + 1) m' hr
      | ok p => rw [hr] at h; exact absurd h (by simp)

/-- Sorting an empty directory listing. -/
theorem listChunkFiles_nil : listChunkFiles [] = [] := by
  simp [listChunkFiles]

/-- A fully successful `processVideo` run stores the `chunked` record built
from the sorted enumeration of the directory contents. -/
theorem processVideo_okEnv (s : Session) (files : List String) (now : Nat) :
    processVideo (some s) (okProcessEnv files) now =
      (some (chunkedRecord s files now),
       { statusCode := 200, success := true,
         message := "Video chunked into " ++
           toString (listChunkFiles files).length ++ " valid MP4 segments",
         totalChunks := some (listChunkFiles files).length,
         chunkUrls := some ((listChunkFiles files).map fun f =>
           SignedUrl.mk (chunkKeyFor s.videoId f) 3600) }) := by
  simp [processVideo, okProcessEnv, uploadChunksFrom_nil_puts, chunkedRecord]

/-- A `processVideo` run whose download throws and whose recovery write also
throws leaves the record at status `processing` with no error recorded. -/
theorem processVideo_failDownloadEnv (s : Session) (m m' : String)
    (now : Nat) :
    processVideo (some s) (failDownloadEnv m m') now =
      (some { s with status := .processing }, processFailResp m) := by
  simp [processVideo, failDownloadEnv, recoverFailed]

/-- A `processVideo` run whose download throws and whose recovery write
succeeds stores the `failed` record with the cause. -/
theorem processVideo_failDownloadRecoverEnv (s : Session) (m : String)
    (now : Nat) :
    processVideo (some s) (failDownloadRecoverEnv m) now =
      (some { s with status := .failed, error := some m },
       processFailResp m) := by
  simp [processVideo, failDownloadRecoverEnv, recoverFailed]

/-- Dispatch on any session that is not `chunked` is rejected with the 400
envelope and leaves the stored record unchanged. -/
theorem analyzeVideo_not_chunked (s : Session) (env : AnalyzeEnv) (now : Nat)
    (h : s.status ≠ .chunked) :
    analyzeVideo (some s) env now =
      (some s,
       { statusCode := 400, success := false,
         message := "Video not yet chunked",
         currentStatus := some s.status }) := by
  simp [analyzeVideo, h]

/-! ## Claim C9 — initiate validation -/

/-- Claim C9 is false as stated: a negative `fileSize` is truthy in
JavaScript, so `initiateUpload` with `fileName = "a.mp4"` and
`fileSize = -100` passes the `!fileName || !fileSize` check, creates a
session, and answers 200 rather than the 400 validation envelope. -/
theorem initiate_negative_size_cex : ¬ C9Claim := fun h =>
  absurd
    (h (some "a.mp4") (some (-100)) "vid-1" 0 .ok
      (Or.inr (Or.inr ⟨-100, by decide, rfl⟩))).2
    (by decide)

/-- Claim C9 amended: `initiateUpload` rejects with 400 and creates no
session exactly when the name is missing (or empty) or the size is missing
or zero; any other request with a successful store write — including one
with a negative size — creates the session and answers 200. -/
theorem initiate_validation :
    (∀ (fn : Option String) (fs : Option Int) (vid : String) (now : Nat)
       (w : ExtOutcome),
       (fn = none ∨ fn = some "" ∨ fs = none ∨ fs = some 0) →
       (initiateUpload fn fs vid now w).1 = none ∧
       (initiateUpload fn fs vid now w).2.statusCode = 400) ∧
    (∀ (nm : String) (v : Int) (vid : String) (now : Nat),
       nm ≠ "" → v ≠ 0 →
       ((initiateUpload (some nm) (some v) vid now .ok).1).isSome ∧
       (initiateUpload (some nm) (some v) vid now .ok).2.statusCode = 200) := by
  constructor
  · intro fn fs vid now w h
    rcases h with rfl | rfl | rfl | rfl <;>
      simp [initiateUpload, jsFalsyStr, jsFalsyNum]
  · intro nm v vid now h1 h2
    simp [initiateUpload, jsFalsyStr, jsFalsyNum, h1, h2]

/-- Witness for `initiate_validation` at concrete requests. -/
theorem initiate_validation_witness :
    (initiateUpload none (some 5) "vid-1" 0 .ok).1 = none ∧
    ((initiateUpload (some "a.mp4") (some 7) "vid-1" 0 .ok).1).isSome :=
  ⟨(initiate_validation.1 none (some 5) "vid-1" 0 .ok (Or.inl rfl)).1,
   (initiate_validation.2 "a.mp4" 7 "vid-1" 0 (by decide) (by decide)).1⟩

/-! ## Claim C10 — empty segment list at the playback interface -/

/-- Claim C10 confirmed: a stored empty segment reference list makes
`getChunks` fail with exactly the same `Video not yet chunked` envelope as
a record with no reference fields at all; the two records are
indistinguishable at this interface. -/
theorem chunks_empty_eq_absent (s : Session) (h : s.chunkUrls = some []) :
    (getChunks (some s)).2 =
      (getChunks (some { s with chunkUrls := none, chunkKeys := none })).2 ∧
    (getChunks (some s)).2.statusCode = 400 ∧
    (getChunks (some s)).2.message = "Video not yet chunked" := by
  simp [getChunks, noChunkUrls, h]

/-- Witness for `chunks_empty_eq_absent` at a concrete session. -/
theorem chunks_empty_eq_absent_witness :
    (getChunks (some emptyRefsSession)).2.statusCode = 400 :=
  (chunks_empty_eq_absent emptyRefsSession rfl).2.1

/-! ## Claim C6 — the status endpoint's body -/

/-- Claim C6 is false as stated: the status endpoint's body carries no
`completedChunkIndices` or `remainingChunkIndices` field at all (shown at a
concrete session), so it cannot return the completed set and its
complement. -/
theorem status_no_chunk_sets_cex : ¬ C6Claim := fun h =>
  absurd (h sessionU).2 (by decide)

/-- Claim C6 amended: for an existing session the status endpoint answers
200 with exactly the fields success, videoId, fileName, status,
totalChunks (0 when unset), createdAt, processedAt and completedAt; no
chunk-index bookkeeping is recorded or returned. -/
theorem status_body_fields (s : Session) :
    (getUploadStatus (some s)).2.1 = 200 ∧
    ((getUploadStatus (some s)).2.2).map Prod.fst =
      ["success", "videoId", "fileName", "status", "totalChunks",
       "createdAt", "processedAt", "completedAt"] ∧
    ((getUploadStatus (some s)).2.2)[4]? =
      some ("totalChunks", JVal.num (s.totalChunks.getD 0)) ∧
    "remainingChunkIndices" ∉ ((getUploadStatus (some s)).2.2).map Prod.fst := by
  refine ⟨rfl, rfl, rfl, ?_⟩
  show "remainingChunkIndices" ∉ (getUploadStatusBody s).map Prod.fst
  simp [getUploadStatusBody]

/-! ## Claim C1 — re-invoking dispatch after a failure -/

/-- Claim C1 is false as stated: after a failed dispatch the record's
status is `failed`, so re-invoking `analyzeVideo` on a session whose
segment references are still populated hits the `status !== 'chunked'`
gate and is rejected with 400 `Video not yet chunked` — it is not
accepted, even with an all-successful analysis environment. -/
theorem dispatch_retry_rejected_cex : ¬ C1Claim := fun h =>
  absurd
    ((h failedDispatchSession okAnalyzeEnv 5 rfl (by decide)
        rfl rfl rfl rfl).1)
    (by decide)

/-- Claim C1 amended: dispatch is accepted only while the record's status
is `chunked`; after a recorded dispatch failure (status `failed`, segment
references still populated) a re-invocation is rejected with 400
`Video not yet chunked` and leaves the record unchanged.  From `chunked`
with populated references, a run whose external steps all succeed does end
with status `completed`. -/
theorem dispatch_retry_amended :
    (∀ (s : Session) (env : AnalyzeEnv) (now : Nat), s.status = .failed →
       analyzeVideo (some s) env now =
         (some s,
          { statusCode := 400, success := false,
            message := "Video not yet chunked",
            currentStatus := some Status.failed })) ∧
    (∀ (s : Session) (env : AnalyzeEnv) (now : Nat) (urls : List SignedUrl),
       s.status = .chunked → s.chunkUrls = some urls →
       env.statusWrite = .ok → env.chunkDownloads = [] →
       env.analysisCall = .ok → env.finalWrite = .ok →
       analyzeVideo (some s) env now =
         (some { s with
                 status := .completed,
                 analysisResults := some env.analysisPayload,
                 completedAt := some now },
          { statusCode := 200, success := true,
            message := "Analysis completed successfully",
            analysisResults := some env.analysisPayload })) := by
  constructor
  · intro s env now h
    rw [analyzeVideo_not_chunked s env now (by rw [h]; decide), h]
  · intro s env now urls hs hu hw hd ha hf
    obtain ⟨w, cd, ac, ap, fw, fin⟩ := env
    simp only at hw hd ha hf
    subst hw hd ha hf
    simp [analyzeVideo, hs, hu, downloadAll_nil]

/-- Witness for `dispatch_retry_amended` at concrete sessions. -/
theorem dispatch_retry_amended_witness :
    (analyzeVideo (some failedDispatchSession) okAnalyzeEnv 5).2.statusCode
      = 400 ∧
    (analyzeVideo (some chunkedSession) okAnalyzeEnv 6).2.success = true := by
  constructor
  · rw [dispatch_retry_amended.1 failedDispatchSession okAnalyzeEnv 5 rfl]
  · rw [dispatch_retry_amended.2 chunkedSession okAnalyzeEnv 6
      [⟨"videos/vid-1/chunks/chunk_000.mp4", 3600⟩] rfl rfl rfl rfl rfl rfl]

/-! ## Claim C4 — playback resolution -/

/-- Claim C4 is false as stated: with an empty object store (nothing
durably stored), `streamVideo` on an existing fresh session still answers
success with a signed descriptor for the original key — the code never
checks durable storage, so the `NotReady` arm of the claim fails. -/
theorem playback_no_storage_check_cex : ¬ C4Claim := fun h =>
  absurd (((h sessionU []).2.2 rfl).1) (by decide)

/-- Claim C4 amended: the playback surface is split in two and performs no
durable-storage check.  `getChunks` returns one fresh 24-hour descriptor
per stored segment reference, in stored order, when the reference list is
populated and non-empty, and fails 400 `Video not yet chunked` otherwise;
`streamVideo` returns a single descriptor for the original source for any
existing session with a non-empty fileName, whatever the object store
contains — there is no NotReady failure when nothing is stored. -/
theorem playback_resolution_amended :
    (∀ (s : Session) (keys : List String) (u : SignedUrl)
       (us : List SignedUrl),
       s.chunkKeys = some keys → s.chunkUrls = some (u :: us) →
       (getChunks (some s)).2 =
         { statusCode := 200, success := true,
           message := "Chunk URLs ready for playback",
           totalChunks := some keys.length,
           chunkUrls := some (keys.map fun k => SignedUrl.mk k 86400) }) ∧
    (∀ s : Session, noChunkUrls s.chunkUrls = true →
       (getChunks (some s)).2 =
         { statusCode := 400, success := false,
           message := "Video not yet chunked", status := some s.status }) ∧
    (∀ (s : Session) (s3Stored : List String), s.fileName ≠ "" →
       (streamVideo (some s) s3Stored).2 =
         { statusCode := 200, success := true,
           message := "Presigned URL for original video",
           playbackUrl :=
             some ⟨originalKeyFor s.videoId s.fileName, 86400⟩ }) := by
  refine ⟨?_, ?_, ?_⟩
  · intro s keys u us hk hu
    simp [getChunks, noChunkUrls, hk, hu]
  · intro s h
    simp [getChunks, h]
  · intro s s3 h
    simp [streamVideo, h]

/-- Witness for `playback_resolution_amended` at concrete sessions. -/
theorem playback_resolution_amended_witness :
    (getChunks (some chunkedSession)).2.statusCode = 200 ∧
    (getChunks (some sessionU)).2.statusCode = 400 ∧
    (streamVideo (some sessionU) []).2.statusCode = 200 := by
  refine ⟨?_, ?_, ?_⟩
  · rw [playback_resolution_amended.1 chunkedSession
      ["videos/vid-1/chunks/chunk_000.mp4"]
      ⟨"videos/vid-1/chunks/chunk_000.mp4", 3600⟩ [] rfl rfl]
  · rw [playback_resolution_amended.2.1 sessionU rfl]
  · rw [playback_resolution_amended.2.2 sessionU [] (by decide)]

/-! ## Case-analysis helpers for `processVideo` -/

/-- The catch block never changes the stored segment reference fields. -/
theorem recoverFailed_refs (s : Session) (m : String) (o : ExtOutcome)
    (s' : Session) (h : recoverFailed (some s) m o = some s') :
    s'.chunkKeys = s.chunkKeys ∧ s'.chunkUrls = s.chunkUrls := by
  cases o with
  | ok =>
    simp only [recoverFailed, Option.some.injEq] at h
    rw [← h]
    exact ⟨rfl, rfl⟩
  | fail m2 =>
    simp only [recoverFailed, Option.some.injEq] at h
    rw [← h]
    exact ⟨rfl, rfl⟩

/-- On every 500 run of `processVideo` whose recovery write succeeds, the
stored record ends `failed` carrying the failing step's message, and that
message is the message of one of the environment's failure outcomes. -/
theorem processVideo_500_persisted (s : Session) (env : ProcessEnv)
    (now : Nat) (hrec : env.recoveryWrite = .ok)
    (h500 : (processVideo (some s) env now).2.statusCode = 500) :
    ∃ s' m, (processVideo (some s) env now).1 = some s' ∧
      s'.status = .failed ∧ s'.error = some m ∧
      (env.statusWrite = .fail m ∨ env.download = .fail m ∨
       env.probe = .fail m ∨ env.split = .fail m ∨
       ExtOutcome.fail m ∈ env.chunkPuts ∨ env.finalWrite = .fail m) := by
  obtain ⟨w, dl, pr, sp, files, puts, fw, rw'⟩ := env
  simp only at hrec h500 ⊢
  subst hrec
  cases w with
  | fail m =>
    refine ⟨{ s with status := .failed, error := some m }, m, ?_, rfl, rfl,
      Or.inl rfl⟩
    simp [processVideo, recoverFailed]
  | ok =>
  cases dl with
  | fail m =>
    refine ⟨{ s with status := .failed, error := some m }, m, ?_, rfl, rfl,
      Or.inr (Or.inl rfl)⟩
    simp [processVideo, recoverFailed]
  | ok =>
  cases pr with
  | fail m =>
    refine ⟨{ s with status := .failed, error := some m }, m, ?_, rfl, rfl,
      Or.inr (Or.inr (Or.inl rfl))⟩
    simp [processVideo, recoverFailed]
  | ok =>
  cases sp with
  | fail m =>
    refine ⟨{ s with status := .failed, error := some m }, m, ?_, rfl, rfl,
      Or.inr (Or.inr (Or.inr (Or.inl rfl)))⟩
    simp [processVideo, recoverFailed]
  | ok =>
  cases hu : uploadChunksFrom s.videoId puts (listChunkFiles files) 0 with
  | error m =>
    refine ⟨{ s with status := .failed, error := some m }, m, ?_, rfl, rfl,
      Or.inr (Or.inr (Or.inr (Or.inr (Or.inl
        (uploadChunksFrom_error_mem s.videoId puts _ 0 m hu)))))⟩
    simp [processVideo, hu, recoverFailed]
  | ok p =>
    obtain ⟨keys, urls⟩ := p
    cases fw with
    | fail m =>
      refine ⟨{ s with status := .failed, error := some m }, m, ?_, rfl, rfl,
        Or.inr (Or.inr (Or.inr (Or.inr (Or.inr rfl))))⟩
      simp [processVideo, hu, recoverFailed]
    | ok =>
      exfalso
      simp [processVideo, hu] at h500

/-- Every record `processVideo` can store either keeps the pre-run segment
reference fields, or is the 200 `chunked` record holding the complete key
and URL lists of the sorted enumeration. -/
theorem processVideo_refs_shape (s : Session) (env : ProcessEnv) (now : Nat)
    (s' : Session) (h : (processVideo (some s) env now).1 = some s') :
    (s'.chunkKeys = s.chunkKeys ∧ s'.chunkUrls = s.chunkUrls) ∨
    (s'.status = .chunked ∧
     s'.chunkKeys =
       some ((listChunkFiles env.dirFiles).map (chunkKeyFor s.videoId)) ∧
     s'.chunkUrls = some ((listChunkFiles env.dirFiles).map fun f =>
       SignedUrl.mk (chunkKeyFor s.videoId f) 3600) ∧
     (processVideo (some s) env now).2.statusCode = 200) := by
  obtain ⟨w, dl, pr, sp, files, puts, fw, rw'⟩ := env
  simp only at h ⊢
  cases w with
  | fail m =>
    simp only [processVideo] at h
    exact Or.inl (recoverFailed_refs s m rw' s' h)
  | ok =>
  cases dl with
  | fail m =>
    simp only [processVideo] at h
    exact Or.inl (recoverFailed_refs { s with status := .processing } m rw' s' h)
  | ok =>
  cases pr with
  | fail m =>
    simp only [processVideo] at h
    exact Or.inl (recoverFailed_refs { s with status := .processing } m rw' s' h)
  | ok =>
  cases sp with
  | fail m =>
    simp only [processVideo] at h
    exact Or.inl (recoverFailed_refs { s with status := .processing } m rw' s' h)
  | ok =>
  cases hu : uploadChunksFrom s.videoId puts (listChunkFiles files) 0 with
  | error m =>
    simp only [processVideo, hu] at h
    exact Or.inl (recoverFailed_refs { s with status := .processing } m rw' s' h)
  | ok p =>
    obtain ⟨keys, urls⟩ := p
    obtain ⟨hk, hurls⟩ := uploadChunksFrom_ok_shape s.videoId puts _ 0 keys urls hu
    cases fw with
    | fail m =>
      simp only [processVideo, hu] at h
      exact Or.inl (recoverFailed_refs { s with status := .processing } m rw' s' h)
    | ok =>
      simp only [processVideo, hu, Option.some.injEq] at h
      refine Or.inr ⟨?_, ?_, ?_, ?_⟩
      · rw [← h]
      · rw [← h]; simpa using hk
      · rw [← h]; simpa using hurls
      · simp [processVideo, hu]

/-! ## Claim C3 — the session state machine -/

/-- Claim C3 is false as stated: `processVideo` performs no state check,
so invoking it on the terminal `completed` session `sessionD` moves the
record to `processing` (here its download then fails with a swallowed
recovery write) — segmentation is not restricted to `uploading` and
`completed` is not terminal. -/
theorem state_machine_cex : ¬ C3Claim := by
  intro h
  have h3 := h.2.2 sessionD (failDownloadEnv "boom" "redis down") 4 (by decide)
  rw [processVideo_failDownloadEnv] at h3
  injection h3 with h3'
  exact absurd (congrArg Session.status h3') (by decide)

/-- Claim C3 amended: dispatch is rejected (record unchanged, 400) on any
session not in `chunked`, but segmentation has no precondition at all: on
any existing session — whatever its status, including the terminal
`completed` and `failed` — `processVideo` immediately moves the record to
`processing` and, on success, to `chunked`.  Terminality and the
`uploading`-only entry into segmentation do not hold. -/
theorem state_machine_amended :
    (∀ (s : Session) (env : AnalyzeEnv) (now : Nat), s.status ≠ .chunked →
       (analyzeVideo (some s) env now).1 = some s ∧
       (analyzeVideo (some s) env now).2.statusCode = 400) ∧
    (∀ (s : Session) (files : List String) (now : Nat),
       (processVideo (some s) (okProcessEnv files) now).1 =
         some (chunkedRecord s files now) ∧
       (chunkedRecord s files now).status = .chunked) ∧
    (∀ (s : Session) (m m' : String) (now : Nat),
       (processVideo (some s) (failDownloadEnv m m') now).1 =
         some { s with status := .processing }) := by
  refine ⟨?_, ?_, ?_⟩
  · intro s env now h
    rw [analyzeVideo_not_chunked s env now h]
    exact ⟨rfl, rfl⟩
  · intro s files now
    rw [processVideo_okEnv]
    exact ⟨rfl, rfl⟩
  · intro s m m' now
    rw [processVideo_failDownloadEnv]

/-- Witness for `state_machine_amended` at concrete sessions. -/
theorem state_machine_amended_witness :
    (analyzeVideo (some sessionU) okAnalyzeEnv 2).1 = some sessionU ∧
    (chunkedRecord sessionD [] 9).status = .chunked ∧
    (processVideo (some sessionD) (failDownloadEnv "a" "b") 9).1 =
      some { sessionD with status := .processing } :=
  ⟨(state_machine_amended.1 sessionU okAnalyzeEnv 2 (by decide)).1,
   (state_machine_amended.2.1 sessionD [] 9).2,
   state_machine_amended.2.2 sessionD "a" "b" 9⟩

/-! ## Claim C2 — segmentation failure handling -/

/-- Claim C2 is false as stated: when the catch block's own store write
fails (here the download throws and the recovery `setex` throws too), the
run answers 500 but the record is left at status `processing` with no
error recorded — it does not end `failed`. -/
theorem process_failure_cex : ¬ C2Claim := by
  intro h
  obtain ⟨s', m, h1, h2, -⟩ :=
    (h sessionU (failDownloadEnv "S3 get failed" "redis write failed") 3).1
      (by rw [processVideo_failDownloadEnv]; rfl)
  rw [processVideo_failDownloadEnv] at h1
  injection h1 with h1'
  rw [← h1'] at h2
  exact absurd h2 (by decide)

/-- Claim C2 amended: on every failing `processVideo` run whose recovery
write succeeds (and whose collaborators throw non-empty messages), the
record ends `failed` with the failing step's non-empty message; if the
recovery write itself fails, the record keeps its previous state with no
error recorded.  Unconditionally, segment references are never partially
published: any stored record either keeps the pre-run reference fields or
holds the complete ordered key and URL lists. -/
theorem process_failure_amended :
    (∀ (s : Session) (env : ProcessEnv) (now : Nat),
       env.recoveryWrite = .ok → env.nonemptyMsgs →
       (processVideo (some s) env now).2.statusCode = 500 →
       ∃ s' m, (processVideo (some s) env now).1 = some s' ∧
         s'.status = .failed ∧ s'.error = some m ∧ m ≠ "") ∧
    (∀ (s : Session) (env : ProcessEnv) (now : Nat) (s' : Session),
       (processVideo (some s) env now).1 = some s' →
       s'.chunkKeys = s.chunkKeys ∨
       (s'.status = .chunked ∧
        s'.chunkKeys =
          some ((listChunkFiles env.dirFiles).map (chunkKeyFor s.videoId)) ∧
        s'.chunkUrls = some ((listChunkFiles env.dirFiles).map fun f =>
          SignedUrl.mk (chunkKeyFor s.videoId f) 3600))) := by
  constructor
  · intro s env now hrec hmsg h500
    obtain ⟨s', m, h1, h2, h3, hsrc⟩ :=
      processVideo_500_persisted s env now hrec h500
    refine ⟨s', m, h1, h2, h3, ?_⟩
    obtain ⟨n1, n2, n3, n4, n5, n6⟩ := hmsg
    rcases hsrc with hh | hh | hh | hh | hh | hh
    · rw [hh] at n1; exact n1
    · rw [hh] at n2; exact n2
    · rw [hh] at n3; exact n3
    · rw [hh] at n4; exact n4
    · exact n5 _ hh
    · rw [hh] at n6; exact n6
  · intro s env now s' h
    rcases processVideo_refs_shape s env now s' h with ⟨hk, -⟩ | ⟨hs, hk, hu, -⟩
    · exact Or.inl hk
    · exact Or.inr ⟨hs, hk, hu⟩

/-- Witness for `process_failure_amended` at a concrete failing run. -/
theorem process_failure_amended_witness :
    ∃ s' m,
      (processVideo (some sessionU)
        (failDownloadRecoverEnv "S3 download failed") 3).1 = some s' ∧
      s'.status = .failed ∧ s'.error = some m ∧ m ≠ "" :=
  process_failure_amended.1 sessionU
    (failDownloadRecoverEnv "S3 download failed") 3 rfl
    ⟨trivial, by simp [failDownloadRecoverEnv, ExtOutcome.nonemptyMsg],
     trivial, trivial, by simp [failDownloadRecoverEnv], trivial⟩
    (by rw [processVideo_failDownloadRecoverEnv]; rfl)

/-! ## Claim C8 — persisting failures before returning -/

/-- On a failing `analyzeVideo` run whose own store writes succeed and
whose input session carries `chunkUrls`, the record ends `failed` with the
cause recorded. -/
theorem analyzeVideo_500_persisted (s : Session) (env : AnalyzeEnv)
    (now : Nat) (hu : s.chunkUrls.isSome) (hw : env.statusWrite = .ok)
    (hf : env.failWrite = .ok) (hfin : env.finalWrite = .ok)
    (h500 : (analyzeVideo (some s) env now).2.statusCode = 500) :
    ∃ s', (analyzeVideo (some s) env now).1 = some s' ∧
      s'.status = .failed ∧ s'.error.isSome := by
  obtain ⟨w, cd, ac, ap, fw, fin⟩ := env
  simp only at hw hf hfin h500 ⊢
  subst hw hf hfin
  by_cases hs : s.status = Status.chunked
  · obtain ⟨urls, hurls⟩ := Option.isSome_iff_exists.mp hu
    cases hdl : downloadAll cd urls 0 with
    | fail m =>
      refine ⟨{ s with status := .failed, error := some m }, ?_, rfl, rfl⟩
      simp [analyzeVideo, hs, hurls, hdl]
    | ok =>
      cases ac with
      | fail m =>
        refine ⟨{ s with status := .failed, error := some m }, ?_, rfl, rfl⟩
        simp [analyzeVideo, hs, hurls, hdl]
      | ok =>
        exfalso
        simp [analyzeVideo, hs, hurls, hdl] at h500
  · rw [analyzeVideo_not_chunked s _ now hs] at h500
    simp at h500

/-- Claim C8 is false as stated: on `chunkedSession` with an environment in
which the analysis succeeds but the `setex` storing the completed record
throws, `analyzeVideo` answers 500 while leaving the record at status
`analyzing` with no error — the failure is not persisted, so a subsequent
status call does not reflect it. -/
theorem unpersisted_failure_cex : ¬ C8Claim := by
  intro h
  obtain ⟨s', h1, h2, -⟩ := h.2 chunkedSession finalWriteFailEnv 7 (by decide)
  have he : (analyzeVideo (some chunkedSession) finalWriteFailEnv 7).1 =
      some { chunkedSession with status := .analyzing } := by decide
  rw [he] at h1
  injection h1 with h1'
  rw [← h1'] at h2
  exact absurd h2 (by decide)

/-- Claim C8 amended: `processVideo` persists a failure before returning
whenever its recovery write succeeds, and `analyzeVideo` persists exactly
the failures of the chunk downloads and the analysis call, provided its own
store writes succeed; but a failure of a session-store write itself is not
persisted — in particular, when the write storing the completed result
throws, the caller gets the 500 outer-catch envelope while the record stays
at status `analyzing` with no error recorded. -/
theorem failure_persistence_amended :
    (∀ (s : Session) (env : ProcessEnv) (now : Nat),
       env.recoveryWrite = .ok →
       (processVideo (some s) env now).2.statusCode = 500 →
       ∃ s', (processVideo (some s) env now).1 = some s' ∧
         s'.status = .failed ∧ s'.error.isSome) ∧
    (∀ (s : Session) (env : AnalyzeEnv) (now : Nat),
       s.chunkUrls.isSome → env.statusWrite = .ok → env.failWrite = .ok →
       env.finalWrite = .ok →
       (analyzeVideo (some s) env now).2.statusCode = 500 →
       ∃ s', (analyzeVideo (some s) env now).1 = some s' ∧
         s'.status = .failed ∧ s'.error.isSome) ∧
    (∀ (s : Session) (env : AnalyzeEnv) (now : Nat) (urls : List SignedUrl)
       (m : String),
       s.status = .chunked → s.chunkUrls = some urls →
       env.statusWrite = .ok → downloadAll env.chunkDownloads urls 0 = .ok →
       env.analysisCall = .ok → env.finalWrite = .fail m →
       (analyzeVideo (some s) env now).1 =
         some { s with status := .analyzing } ∧
       (analyzeVideo (some s) env now).2 = analyzeOuterCatchResp) := by
  refine ⟨?_, ?_, ?_⟩
  · intro s env now hrec h500
    obtain ⟨s', m, h1, h2, h3, -⟩ :=
      processVideo_500_persisted s env now hrec h500
    exact ⟨s', h1, h2, by rw [h3]; rfl⟩
  · exact analyzeVideo_500_persisted
  · intro s env now urls m hs hu hw hdl ha hf
    obtain ⟨w, cd, ac, ap, fw, fin⟩ := env
    simp only at hw hdl ha hf ⊢
    subst hw ha hf
    constructor
    · simp [analyzeVideo, hs, hu, hdl]
    · simp [analyzeVideo, hs, hu, hdl]

/-- Witness for `failure_persistence_amended` at concrete runs. -/
theorem failure_persistence_amended_witness :
    (∃ s', (processVideo (some sessionU)
        (failDownloadRecoverEnv "probe exploded") 8).1 = some s' ∧
      s'.status = .failed ∧ s'.error.isSome) ∧
    (analyzeVideo (some chunkedSession) finalWriteFailEnv 7).1 =
      some { chunkedSession with status := .analyzing } :=
  ⟨failure_persistence_amended.1 sessionU
     (failDownloadRecoverEnv "probe exploded") 8 rfl
     (by rw [processVideo_failDownloadRecoverEnv]; rfl),
   (failure_persistence_amended.2.2 chunkedSession finalWriteFailEnv 7
     [⟨"videos/vid-1/chunks/chunk_000.mp4", 3600⟩] "redis connection lost"
     rfl rfl rfl (by decide) rfl rfl).1⟩

/-! ## Reachability machinery for claim C5 -/

/-- The read-only operations do not change the stored record. -/
theorem getChunks_store (st : Option Session) : (getChunks st).1 = st := by
  cases st with
  | none => rfl
  | some s =>
    cases hn : noChunkUrls s.chunkUrls with
    | true => simp [getChunks, hn]
    | false => cases hk : s.chunkKeys <;> simp [getChunks, hn, hk]

/-- The status endpoint does not change the stored record. -/
theorem getUploadStatus_store (st : Option Session) :
    (getUploadStatus st).1 = st := by
  cases st <;> rfl

/-- The playback endpoint does not change the stored record. -/
theorem streamVideo_store (st : Option Session) (s3 : List String) :
    (streamVideo st s3).1 = st := by
  cases st with
  | none => rfl
  | some s => cases hf : s.fileName == "" <;> simp [streamVideo, hf]

/-- The catch block either leaves the record alone or marks it failed. -/
theorem recoverFailed_status (s : Session) (m : String) (o : ExtOutcome)
    (s' : Session) (h : recoverFailed (some s) m o = some s') :
    s' = s ∨ s'.status = .failed := by
  cases o with
  | ok =>
    simp only [recoverFailed, Option.some.injEq] at h
    exact Or.inr (by rw [← h])
  | fail m2 =>
    simp only [recoverFailed, Option.some.injEq] at h
    exact Or.inl h.symm

/-- `processVideo` never stores a `completed` record (other than by leaving
an existing record untouched). -/
theorem processVideo_status_shape (s : Session) (env : ProcessEnv)
    (now : Nat) (s' : Session)
    (h : (processVideo (some s) env now).1 = some s') :
    s' = s ∨ s'.status ≠ .completed := by
  obtain ⟨w, dl, pr, sp, files, puts, fw, rw'⟩ := env
  cases w with
  | fail m =>
    simp only [processVideo] at h
    rcases recoverFailed_status s m rw' s' h with rfl | hf
    · exact Or.inl rfl
    · exact Or.inr (by rw [hf]; decide)
  | ok =>
  cases dl with
  | fail m =>
    simp only [processVideo] at h
    rcases recoverFailed_status { s with status := .processing } m rw' s' h
      with rfl | hf
    · exact Or.inr (by simp)
    · exact Or.inr (by rw [hf]; decide)
  | ok =>
  cases pr with
  | fail m =>
    simp only [processVideo] at h
    rcases recoverFailed_status { s with status := .processing } m rw' s' h
      with rfl | hf
    · exact Or.inr (by simp)
    · exact Or.inr (by rw [hf]; decide)
  | ok =>
  cases sp with
  | fail m =>
    simp only [processVideo] at h
    rcases recoverFailed_status { s with status := .processing } m rw' s' h
      with rfl | hf
    · exact Or.inr (by simp)
    · exact Or.inr (by rw [hf]; decide)
  | ok =>
  cases hu : uploadChunksFrom s.videoId puts (listChunkFiles files) 0 with
  | error m =>
    simp only [processVideo, hu] at h
    rcases recoverFailed_status { s with status := .processing } m rw' s' h
      with rfl | hf
    · exact Or.inr (by simp)
    · exact Or.inr (by rw [hf]; decide)
  | ok p =>
    obtain ⟨keys, urls⟩ := p
    cases fw with
    | fail m =>
      simp only [processVideo, hu] at h
      rcases recoverFailed_status { s with status := .processing } m rw' s' h
        with rfl | hf
      · exact Or.inr (by simp)
      · exact Or.inr (by rw [hf]; decide)
    | ok =>
      simp only [processVideo, hu, Option.some.injEq] at h
      exact Or.inr (by rw [← h]; simp)

/-- `analyzeVideo` stores a `completed` record only together with analysis
results. -/
theorem analyzeVideo_status_shape (s : Session) (env : AnalyzeEnv)
    (now : Nat) (s' : Session)
    (h : (analyzeVideo (some s) env now).1 = some s') :
    s' = s ∨ s'.status ≠ .completed ∨ s'.analysisResults.isSome := by
  obtain ⟨w, cd, ac, ap, fw, fin⟩ := env
  by_cases hs : s.status = Status.chunked
  · cases w with
    | fail m =>
      simp only [analyzeVideo, hs, if_pos, Option.some.injEq] at h
      exact Or.inl h.symm
    | ok =>
    cases hu : s.chunkUrls with
    | none =>
      simp only [analyzeVideo, hs, if_pos, hu, Option.some.injEq] at h
      exact Or.inr (Or.inl (by rw [← h]; simp))
    | some urls =>
    cases hdl : downloadAll cd urls 0 with
    | fail m =>
      cases fw with
      | ok =>
        simp only [analyzeVideo, hs, if_pos, hu, hdl, Option.some.injEq] at h
        exact Or.inr (Or.inl (by rw [← h]; simp))
      | fail m2 =>
        simp only [analyzeVideo, hs, if_pos, hu, hdl, Option.some.injEq] at h
        exact Or.inr (Or.inl (by rw [← h]; simp))
    | ok =>
    cases ac with
    | fail m =>
      cases fw with
      | ok =>
        simp only [analyzeVideo, hs, if_pos, hu, hdl, Option.some.injEq] at h
        exact Or.inr (Or.inl (by rw [← h]; simp))
      | fail m2 =>
        simp only [analyzeVideo, hs, if_pos, hu, hdl, Option.some.injEq] at h
        exact Or.inr (Or.inl (by rw [← h]; simp))
    | ok =>
    cases fin with
    | fail m =>
      simp only [analyzeVideo, hs, if_pos, hu, hdl, Option.some.injEq] at h
      exact Or.inr (Or.inl (by rw [← h]; simp))
    | ok =>
      simp only [analyzeVideo, hs, if_pos, hu, hdl, Option.some.injEq] at h
      exact Or.inr (Or.inr (by rw [← h]; rfl))
  · rw [analyzeVideo_not_chunked s _ now hs] at h
    simp only [Option.some.injEq] at h
    exact Or.inl h.symm

/-- A freshly created record has status `uploading`. -/
theorem initiateUpload_status (fn : Option String) (fs : Option Int)
    (vid : String) (now : Nat) (w : ExtOutcome) (s' : Session)
    (h : (initiateUpload fn fs vid now w).1 = some s') :
    s'.status = .uploading := by
  by_cases hv : (jsFalsyStr fn || jsFalsyNum fs) = true
  · simp [initiateUpload, hv] at h
  · cases w with
    | ok =>
      simp only [initiateUpload, hv, Bool.false_eq_true, if_false,
        Option.some.injEq] at h
      rw [← h]
    | fail m => simp [initiateUpload, hv] at h

/-- Every public operation preserves the invariant that a completed record
carries analysis results. -/
theorem step_preserves_completedHasResults (st : Option Session) (op : Op)
    (h : CompletedHasResults st) :
    CompletedHasResults (step st op) := by
  intro s' hs' hc
  cases op with
  | initiateOp fn fs vid now w =>
    cases st with
    | some s =>
      simp only [step] at hs'
      exact h s' hs' hc
    | none =>
      simp only [step] at hs'
      exact absurd hc (by rw [initiateUpload_status fn fs vid now w s' hs']; decide)
  | processOp env now =>
    cases st with
    | none => simp [step, processVideo] at hs'
    | some s =>
      simp only [step] at hs'
      rcases processVideo_status_shape s env now s' hs' with rfl | hne
      · exact h s' rfl hc
      · exact absurd hc hne
  | analyzeOp env now =>
    cases st with
    | none => simp [step, analyzeVideo] at hs'
    | some s =>
      simp only [step] at hs'
      rcases analyzeVideo_status_shape s env now s' hs' with rfl | hne | hres
      · exact h s' rfl hc
      · exact absurd hc hne
      · exact hres
  | chunksOp =>
    simp only [step, getChunks_store] at hs'
    exact h s' hs' hc
  | statusOp =>
    simp only [step, getUploadStatus_store] at hs'
    exact h s' hs' hc
  | streamOp s3 =>
    simp only [step, streamVideo_store] at hs'
    exact h s' hs' hc

/-- The invariant holds in every reachable store state. -/
theorem reachable_completedHasResults (st : Option Session)
    (h : Reachable st) : CompletedHasResults st := by
  induction h with
  | refl => intro s hs hc; cases hs
  | tail hab hbc ih =>
    obtain ⟨op, rfl⟩ := hbc
    exact step_preserves_completedHasResults _ op ih

/-- The state after a successful initiate is reachable. -/
theorem reach_sessionU : Reachable (some sessionU) := by
  have h1 : step none
      (.initiateOp (some "a.mp4") (some 1000) "vid-1" 0 .ok) =
      some sessionU := by decide
  exact Relation.ReflTransGen.single ⟨_, h1⟩

/-- The state after a successful zero-segment `processVideo` run is
reachable. -/
theorem reach_sessionC : Reachable (some sessionC) := by
  have h2 : step (some sessionU) (.processOp (okProcessEnv []) 1) =
      some sessionC := by
    simp only [step]
    rw [processVideo_okEnv]
    simp [chunkedRecord, listChunkFiles_nil, sessionC, sessionU]
  exact reach_sessionU.tail ⟨_, h2⟩

/-- The completed state after a successful analysis run is reachable. -/
theorem reach_sessionD : Reachable (some sessionD) := by
  have h3 : step (some sessionC) (.analyzeOp okAnalyzeEnv 2) =
      some sessionD := by decide
  exact reach_sessionC.tail ⟨_, h3⟩

/-- Re-running segmentation on the completed state and failing (with a
successful recovery write) reaches a `failed` record that still carries the
analysis results. -/
theorem reach_sessionBad : Reachable (some sessionBad) := by
  have h4 : step (some sessionD)
      (.processOp (failDownloadRecoverEnv "source object missing") 3) =
      some sessionBad := by
    simp only [step]
    rw [processVideo_failDownloadRecoverEnv]
    rfl
  exact reach_sessionD.tail ⟨_, h4⟩

/-! ## Claim C5 — analysisResult iff completed -/

/-- Claim C5 is false as stated: the reachable record `sessionBad`
(obtained by re-invoking `processVideo` on a completed session and failing)
still carries `analysisResults` while its status is `failed`, so presence
of results does not imply status `completed` on reachable states. -/
theorem results_iff_completed_cex : ¬ C5Claim := fun h =>
  absurd ((h sessionBad reach_sessionBad).mp (by decide)) (by decide)

/-- Claim C5 amended: on every reachable session record, status
`completed` implies `analysisResults` is present (the two are set together
by a successful analysis run and `completed` arises nowhere else); the
converse direction fails because re-invoking segmentation on a completed
session moves the status away from `completed` without clearing the
results. -/
theorem completed_has_results (s : Session) (hr : Reachable (some s))
    (hc : s.status = .completed) : s.analysisResults.isSome :=
  reachable_completedHasResults (some s) hr s rfl hc

/-- Witness for `completed_has_results` at the reachable completed state. -/
theorem completed_has_results_witness :
    sessionD.status = .completed ∧ sessionD.analysisResults.isSome :=
  ⟨rfl, completed_has_results sessionD reach_sessionD rfl⟩

/-! ## The JS sort order and the segment enumeration (claim C7) -/

/-- The JS string order is transitive. -/
theorem jsLeChars_trans (a b c : List Char) (h1 : jsLeChars a b = true)
    (h2 : jsLeChars b c = true) : jsLeChars a c = true := by
  induction a generalizing b c with
  | nil => rfl
  | cons x xs ih =>
    cases b with
    | nil => simp [jsLeChars] at h1
    | cons y ys =>
      cases c with
      | nil => simp [jsLeChars] at h2
      | cons z zs =>
        simp only [jsLeChars] at h1 h2 ⊢
        split_ifs at h1 h2 ⊢ <;>
          first
          | rfl
          | exact ih ys zs h1 h2
          | omega

/-- The JS string order is total. -/
theorem jsLeChars_total (a b : List Char) :
    (jsLeChars a b || jsLeChars b a) = true := by
  induction a generalizing b with
  | nil => simp [jsLeChars]
  | cons x xs ih =>
    cases b with
    | nil => simp [jsLeChars]
    | cons y ys =>
      by_cases hxy : x.toNat < y.toNat
      · simp [jsLeChars, hxy]
      · by_cases hyx : y.toNat < x.toNat
        · simp [jsLeChars, hxy, hyx]
        · simp only [jsLeChars, if_neg hxy, if_neg hyx]
          exact ih ys

/-- String-level transitivity. -/
theorem jsLe_trans (a b c : String) (h1 : jsLe a b = true)
    (h2 : jsLe b c = true) : jsLe a c = true :=
  jsLeChars_trans _ _ _ h1 h2

/-- String-level totality. -/
theorem jsLe_total (a b : String) : (jsLe a b || jsLe b a) = true :=
  jsLeChars_total _ _

/-- Comparing equal heads defers to the tails. -/
theorem jsLeChars_cons_same (c : Char) (as bs : List Char) :
    jsLeChars (c :: as) (c :: bs) = jsLeChars as bs := by
  simp [jsLeChars]

/-- The code unit of a digit character. -/
theorem digitChar_toNat (d : Nat) (h : d ≤ 9) :
    (digitChar d).toNat = 48 + d := by
  interval_cases d <;> rfl

/-- The character list of a three-digit segment file name. -/
theorem chunkFileName_data (i : Nat) (h : i < 1000) :
    (chunkFileName i).data =
      'c' :: 'h' :: 'u' :: 'n' :: 'k' :: '_' ::
      digitChar (i / 100) :: digitChar (i / 10 % 10) :: digitChar (i % 10) ::
      '.' :: 'm' :: 'p' :: '4' :: [] := by
  simp only [chunkFileName, pad3, if_pos h]
  rfl

/-- For indices up to 999, the JS string order on segment file names agrees
with the numeric order of the indices. -/
theorem chunkFileName_le (i j : Nat) (hij : i < j) (hj : j ≤ 999) :
    jsLe (chunkFileName i) (chunkFileName j) = true := by
  have hi1000 : i < 1000 := by omega
  have hj1000 : j < 1000 := by omega
  unfold jsLe
  rw [chunkFileName_data i hi1000, chunkFileName_data j hj1000]
  simp only [jsLeChars_cons_same]
  rcases Nat.lt_trichotomy (i / 100) (j / 100) with h2 | h2 | h2
  · have hlt : (digitChar (i / 100)).toNat < (digitChar (j / 100)).toNat := by
      rw [digitChar_toNat _ (by omega), digitChar_toNat _ (by omega)]
      omega
    simp [jsLeChars, hlt]
  · rw [h2]
    simp only [jsLeChars_cons_same]
    rcases Nat.lt_trichotomy (i / 10 % 10) (j / 10 % 10) with h1 | h1 | h1
    · have hlt : (digitChar (i / 10 % 10)).toNat <
          (digitChar (j / 10 % 10)).toNat := by
        rw [digitChar_toNat _ (by omega), digitChar_toNat _ (by omega)]
        omega
      simp [jsLeChars, hlt]
    · rw [h1]
      simp only [jsLeChars_cons_same]
      have hlt : (digitChar (i % 10)).toNat < (digitChar (j % 10)).toNat := by
        rw [digitChar_toNat _ (by omega), digitChar_toNat _ (by omega)]
        omega
      simp [jsLeChars, hlt]
    · exact absurd h1 (by omega)
  · exact absurd h2 (by omega)

/-- JS `startsWith` holds on an appended extension of the same string. -/
theorem jsStartsWith_append (p r : String) :
    jsStartsWith p (p ++ r) = true := by
  simp [jsStartsWith, List.take_left]

/-- JS `endsWith` holds on a string appended after anything. -/
theorem jsEndsWith_append (q r : String) : jsEndsWith q (r ++ q) = true := by
  simp only [jsEndsWith, String.data_append, List.reverse_append]
  rw [List.take_left' (by simp)]
  simp

/-- Every transcoder-produced file name passes the `chunk_*.mp4` filter. -/
theorem isChunkFile_chunkFileName (i : Nat) :
    isChunkFile (chunkFileName i) = true := by
  unfold isChunkFile chunkFileName
  have h1 : jsStartsWith "chunk_" ("chunk_" ++ pad3 i ++ ".mp4") = true := by
    have h := jsStartsWith_append "chunk_" (pad3 i ++ ".mp4")
    rwa [← String.append_assoc] at h
  have h2 : jsEndsWith ".mp4" ("chunk_" ++ pad3 i ++ ".mp4") = true :=
    jsEndsWith_append ".mp4" ("chunk_" ++ pad3 i)
  simp [h1, h2]

/-- The filter of line 169 keeps every produced segment file. -/
theorem producedSegmentFiles_filter (n : Nat) :
    (producedSegmentFiles n).filter isChunkFile = producedSegmentFiles n := by
  rw [List.filter_eq_self]
  intro f hf
  obtain ⟨i, -, rfl⟩ := List.mem_map.mp hf
  exact isChunkFile_chunkFileName i

/-- For counts up to 1000 the produced names are already in JS sort
order. -/
theorem producedSegmentFiles_pairwise (n : Nat) (hn : n ≤ 1000) :
    (producedSegmentFiles n).Pairwise (fun a b => jsLe a b = true) := by
  rw [List.pairwise_iff_getElem]
  intro i j hi hj hij
  simp only [producedSegmentFiles, List.length_map, List.length_range] at hi hj
  simp only [producedSegmentFiles, List.getElem_map, List.getElem_range]
  exact chunkFileName_le i j hij (by omega)

/-- For counts up to 1000 the enumeration of lines 168-170 lists the
produced files in ascending logical index order. -/
theorem listChunkFiles_produced (n : Nat) (hn : n ≤ 1000) :
    listChunkFiles (producedSegmentFiles n) = producedSegmentFiles n := by
  unfold listChunkFiles
  rw [producedSegmentFiles_filter]
  exact List.mergeSort_of_sorted (producedSegmentFiles_pairwise n hn)

/-- With 1001 segments the enumeration is no longer in index order:
`chunk_1000.mp4` sorts between `chunk_100.mp4` and `chunk_101.mp4`. -/
theorem listChunkFiles_produced_1001_ne :
    listChunkFiles (producedSegmentFiles 1001) ≠ producedSegmentFiles 1001 := by
  intro hEq
  have hsorted : (listChunkFiles (producedSegmentFiles 1001)).Pairwise
      (fun a b => jsLe a b = true) := by
    unfold listChunkFiles
    exact List.sorted_mergeSort (fun a b c => jsLe_trans a b c)
      (fun a b => jsLe_total a b) _
  rw [hEq] at hsorted
  have h2 := List.pairwise_iff_getElem.mp hsorted 999 1000
    (by simp [producedSegmentFiles]) (by simp [producedSegmentFiles])
    (by omega)
  simp only [producedSegmentFiles, List.getElem_map, List.getElem_range] at h2
  exact absurd h2 (by decide)

/-- The chunk key builder is injective in the file name. -/
theorem chunkKeyFor_inj (vid : String) :
    Function.Injective (chunkKeyFor vid) := by
  intro a b h
  have hd := congrArg String.data h
  simp only [chunkKeyFor, String.data_append] at hd
  exact String.ext (List.append_cancel_left hd)

/-! ## Claim C7 — segment enumeration and reference order -/

/-- Claim C7 is false as stated: with 1001 produced segments the JS
`sort()` orders the 4-digit `chunk_1000.mp4` among the `chunk_1xx` names,
so the stored reference list of a fully successful run is not in logical
index order — the "for any segment count" part fails. -/
theorem segment_order_cex : ¬ C7Claim := by
  intro h
  have h1 := h 1001 sessionU 0
    (chunkedRecord sessionU (producedSegmentFiles 1001) 0)
    (by rw [processVideo_okEnv])
  have h2 : (listChunkFiles (producedSegmentFiles 1001)).map
      (chunkKeyFor sessionU.videoId) =
      (producedSegmentFiles 1001).map (chunkKeyFor sessionU.videoId) := by
    simp only [chunkedRecord, Option.some.injEq] at h1
    rw [h1]
    simp [producedSegmentFiles, List.map_map, Function.comp]
  exact listChunkFiles_produced_1001_ne
    (List.map_injective_iff.mpr (chunkKeyFor_inj sessionU.videoId) h2)

/-- Claim C7 amended: the enumeration sorts filenames deterministically by
code-unit order (independent of filesystem enumeration order), uploads
follow that order, and the stored key and URL lists are assembled in the
same order; this equals ascending logical index order exactly when the
segment count is at most 1000 (three-digit `%03d` padding), and the i-th
stored reference then denotes the segment with logical index i.  Beyond
1000 segments the 4-digit names sort out of numeric order. -/
theorem segment_order_amended (n : Nat) (hn : n ≤ 1000) (s : Session)
    (now : Nat) :
    (processVideo (some s) (okProcessEnv (producedSegmentFiles n)) now).1 =
      some (chunkedRecord s (producedSegmentFiles n) now) ∧
    (chunkedRecord s (producedSegmentFiles n) now).chunkKeys =
      some ((List.range n).map fun i =>
        chunkKeyFor s.videoId (chunkFileName i)) ∧
    (chunkedRecord s (producedSegmentFiles n) now).chunkUrls =
      some ((List.range n).map fun i =>
        SignedUrl.mk (chunkKeyFor s.videoId (chunkFileName i)) 3600) := by
  refine ⟨by rw [processVideo_okEnv], ?_, ?_⟩
  · simp only [chunkedRecord, listChunkFiles_produced n hn, Option.some.injEq]
    simp [producedSegmentFiles, List.map_map, Function.comp]
  · simp only [chunkedRecord, listChunkFiles_produced n hn, Option.some.injEq]
    simp [producedSegmentFiles, List.map_map, Function.comp]

/-- Witness for `segment_order_amended` at a three-segment run. -/
theorem segment_order_amended_witness :
    (chunkedRecord sessionU (producedSegmentFiles 3) 1).chunkKeys =
      some ((List.range 3).map fun i =>
        chunkKeyFor sessionU.videoId (chunkFileName i)) :=
  (segment_order_amended 3 (by decide) sessionU 1).2.1

end UploadService
